import Mathlib

/-!
Verification of the btc-bridge client library (crosslightning-evm).

The development shallowly embeds the TypeScript sources:
* `EVMSwapData` — the packed 256-bit `data` word of a swap record with its
  constructor packing and field accessors (`EVMSwapData.ts`);
* `EVMSwapProgram` — authorization verifiers, commit-status reads and the
  on-chain output hash (`EVMSwapProgram`, same source file);
* `EVMBtcRelay` — fork-header submission precomputation, tip decoding and
  synchronize-fee estimation.

Machine integers (ethers `BigNumber`, `bn.js` `BN`) are modelled as `Nat`
(they are unbounded big integers in the source as well); `BN` values that can
go negative (timestamp differences) are modelled as `Int`.  External
cryptography (keccak256 inside `solidityKeccak256`, `verifyMessage`
signature recovery) is kept abstract as function parameters, since it lives
in the `ethers` library, outside this repository.
-/

namespace BtcBridge

/-! ## Generic bit-manipulation helpers -/

/-- Disjoint bitwise-or is addition: or-ing a value below `2 ^ k` with a
value shifted left by `k` adds them. -/
theorem lor_shiftLeft_eq_add {a : Nat} (b k : Nat) (h : a < 2 ^ k) :
    a ||| (b <<< k) = a + b * 2 ^ k := by
  rw [Nat.shiftLeft_eq, Nat.mul_comm b (2 ^ k), Nat.lor_comm, ← Nat.mul_add_lt_is_or h b]
  ring

/-- And-ing with a mask shifted left by `k` picks the corresponding slice of
the operand and reshifts it. -/
theorem land_shiftLeft (d m k : Nat) :
    d &&& (m <<< k) = ((d >>> k) &&& m) <<< k := by
  apply Nat.eq_of_testBit_eq
  intro i
  simp only [Nat.testBit_and, Nat.testBit_shiftLeft, Nat.testBit_shiftRight]
  by_cases h : k ≤ i
  · simp only [h, decide_True, Bool.true_and]
    rw [Nat.add_sub_cancel' h]
  · simp [h]

/-- Bits of a low/high split: the bit at `i` of `a + b * 2 ^ k` (with
`a < 2 ^ k`) comes from `a` below `k` and from `b` at and above `k`. -/
theorem testBit_add_mul_two_pow {a : Nat} (b k i : Nat) (h : a < 2 ^ k) :
    (a + b * 2 ^ k).testBit i =
      if i < k then a.testBit i else b.testBit (i - k) := by
  rw [← lor_shiftLeft_eq_add b k h]
  simp only [Nat.testBit_or, Nat.testBit_shiftLeft]
  by_cases hi : i < k
  · simp only [hi, if_true]
    have : ¬ k ≤ i := by omega
    simp [this]
  · simp only [hi, if_false]
    have hk : k ≤ i := by omega
    have : a.testBit i = false := Nat.testBit_lt_two_pow (lt_of_lt_of_le h (Nat.pow_le_pow_right (by omega) hk))
    simp [this, hk]

/-! ## EVMSwapData: the packed 256-bit `data` word

Translated from `EVMSwapData.ts`.  The constructor packs
`expiry/nonce/confirmations/kind/payIn/payOut/index` into one word with the
same masks and shifts as the source; the accessors and the two setters are
the source methods, acting on the raw word. -/

namespace SwapDataWord

/-- Constructor packing of the `data` word (`EVMSwapData.constructor`). -/
def packData (expiry nonce confirmations kind : Nat) (payIn payOut : Bool)
    (index : Nat) : Nat :=
  ((((((expiry &&& 0xFFFFFFFFFFFFFFFF) |||
    ((nonce &&& 0xFFFFFFFFFFFFFFFF) <<< 64)) |||
    ((confirmations &&& 0xffff) <<< 128)) |||
    ((kind &&& 0xff) <<< 144)) |||
    (((if payIn then 1 else 0) &&& 0xff) <<< 152)) |||
    (((if payOut then 1 else 0) &&& 0xff) <<< 160)) |||
    ((index &&& 0xff) <<< 168)

/-- `EVMSwapData.getExpiry`. -/
def getExpiry (d : Nat) : Nat := d &&& 0xFFFFFFFFFFFFFFFF

/-- `EVMSwapData.getEscrowNonce`. -/
def getEscrowNonce (d : Nat) : Nat := (d >>> 64) &&& 0xFFFFFFFFFFFFFFFF

/-- `EVMSwapData.getConfirmations`. -/
def getConfirmations (d : Nat) : Nat := (d >>> 128) &&& 0xffff

/-- `EVMSwapData.getKind`. -/
def getKind (d : Nat) : Nat := (d >>> 144) &&& 0xff

/-- `EVMSwapData.isPayIn`. -/
def isPayIn (d : Nat) : Bool := decide (0 < ((d >>> 152) &&& 0xFF))

/-- `EVMSwapData.isPayOut`. -/
def isPayOut (d : Nat) : Bool := decide (0 < ((d >>> 160) &&& 0xFF))

/-- `EVMSwapData.getIndex`. -/
def getIndex (d : Nat) : Nat := (d >>> 168) &&& 0xFF

/-- `EVMSwapData.setPayIn` (acting on the raw word). -/
def setPayIn (d : Nat) (payIn : Bool) : Nat :=
  (d &&& 0x00000000000000000000FFFF00FFFFFFFFFFFFFFFFFFFFFFFFFFFFFFFFFFFFFF) |||
    ((if payIn then 1 else 0) <<< 152)

/-- `EVMSwapData.setPayOut` (acting on the raw word). -/
def setPayOut (d : Nat) (payOut : Bool) : Nat :=
  (d &&& 0x00000000000000000000FF00FFFFFFFFFFFFFFFFFFFFFFFFFFFFFFFFFFFFFFFF) |||
    ((if payOut then 1 else 0) <<< 160)

/-- The packed word as a plain sum of shifted (masked) fields. -/
theorem packData_eq_sum (e n c k : Nat) (pi po : Bool) (ix : Nat) :
    packData e n c k pi po ix =
      e % 2 ^ 64 + n % 2 ^ 64 * 2 ^ 64 + c % 2 ^ 16 * 2 ^ 128 +
      k % 2 ^ 8 * 2 ^ 144 + (if pi then 1 else 0) * 2 ^ 152 +
      (if po then 1 else 0) * 2 ^ 160 + ix % 2 ^ 8 * 2 ^ 168 := by
  have m64 : (0xFFFFFFFFFFFFFFFF : Nat) = 2 ^ 64 - 1 := by norm_num
  have m16 : (0xffff : Nat) = 2 ^ 16 - 1 := by norm_num
  have m8 : (0xff : Nat) = 2 ^ 8 - 1 := by norm_num
  have hb : ∀ b : Bool, ((if b then 1 else 0) &&& 0xff : Nat) = if b then 1 else 0 := by
    intro b; cases b <;> decide
  unfold packData
  rw [hb, hb, m64, m16, m8, Nat.and_pow_two_sub_one_eq_mod,
    Nat.and_pow_two_sub_one_eq_mod, Nat.and_pow_two_sub_one_eq_mod,
    Nat.and_pow_two_sub_one_eq_mod, Nat.and_pow_two_sub_one_eq_mod]
  have h1 : e % 2 ^ 64 < 2 ^ 64 := Nat.mod_lt _ (by norm_num)
  have h2 : n % 2 ^ 64 < 2 ^ 64 := Nat.mod_lt _ (by norm_num)
  have h3 : c % 2 ^ 16 < 2 ^ 16 := Nat.mod_lt _ (by norm_num)
  have h4 : k % 2 ^ 8 < 2 ^ 8 := Nat.mod_lt _ (by norm_num)
  have h5 : (if pi then 1 else 0 : Nat) ≤ 1 := by cases pi <;> simp
  have h6 : (if po then 1 else 0 : Nat) ≤ 1 := by cases po <;> simp
  rw [lor_shiftLeft_eq_add _ 64 (by omega)]
  rw [lor_shiftLeft_eq_add _ 128 (by omega)]
  rw [lor_shiftLeft_eq_add _ 144 (by omega)]
  rw [lor_shiftLeft_eq_add _ 152 (by omega)]
  rw [lor_shiftLeft_eq_add _ 160 (by omega)]
  rw [lor_shiftLeft_eq_add _ 168 (by omega)]

/-- `getExpiry` in arithmetic form. -/
theorem getExpiry_eq (d : Nat) : getExpiry d = d % 2 ^ 64 := by
  unfold getExpiry
  rw [show (0xFFFFFFFFFFFFFFFF : Nat) = 2 ^ 64 - 1 from by norm_num,
    Nat.and_pow_two_sub_one_eq_mod]

/-- `getEscrowNonce` in arithmetic form. -/
theorem getEscrowNonce_eq (d : Nat) : getEscrowNonce d = d / 2 ^ 64 % 2 ^ 64 := by
  unfold getEscrowNonce
  rw [show (0xFFFFFFFFFFFFFFFF : Nat) = 2 ^ 64 - 1 from by norm_num,
    Nat.and_pow_two_sub_one_eq_mod, Nat.shiftRight_eq_div_pow]

/-- `getConfirmations` in arithmetic form. -/
theorem getConfirmations_eq (d : Nat) : getConfirmations d = d / 2 ^ 128 % 2 ^ 16 := by
  unfold getConfirmations
  rw [show (0xffff : Nat) = 2 ^ 16 - 1 from by norm_num,
    Nat.and_pow_two_sub_one_eq_mod, Nat.shiftRight_eq_div_pow]

/-- `getKind` in arithmetic form. -/
theorem getKind_eq (d : Nat) : getKind d = d / 2 ^ 144 % 2 ^ 8 := by
  unfold getKind
  rw [show (0xff : Nat) = 2 ^ 8 - 1 from by norm_num,
    Nat.and_pow_two_sub_one_eq_mod, Nat.shiftRight_eq_div_pow]

/-- `isPayIn` in arithmetic form. -/
theorem isPayIn_eq (d : Nat) : isPayIn d = decide (0 < d / 2 ^ 152 % 2 ^ 8) := by
  unfold isPayIn
  rw [show (0xFF : Nat) = 2 ^ 8 - 1 from by norm_num,
    Nat.and_pow_two_sub_one_eq_mod, Nat.shiftRight_eq_div_pow]

/-- `isPayOut` in arithmetic form. -/
theorem isPayOut_eq (d : Nat) : isPayOut d = decide (0 < d / 2 ^ 160 % 2 ^ 8) := by
  unfold isPayOut
  rw [show (0xFF : Nat) = 2 ^ 8 - 1 from by norm_num,
    Nat.and_pow_two_sub_one_eq_mod, Nat.shiftRight_eq_div_pow]

/-- `getIndex` in arithmetic form. -/
theorem getIndex_eq (d : Nat) : getIndex d = d / 2 ^ 168 % 2 ^ 8 := by
  unfold getIndex
  rw [show (0xFF : Nat) = 2 ^ 8 - 1 from by norm_num,
    Nat.and_pow_two_sub_one_eq_mod, Nat.shiftRight_eq_div_pow]

/-- `setPayIn` as a plain sum: bits 152..159 are replaced by the flag, bits
0..151 and 160..175 are kept, bits 176.. are cleared. -/
theorem setPayIn_eq_sum (d : Nat) (b : Bool) :
    setPayIn d b =
      d % 2 ^ 152 + (if b then 1 else 0) * 2 ^ 152 + d / 2 ^ 160 % 2 ^ 16 * 2 ^ 160 := by
  unfold setPayIn
  have hmask :
      (0x00000000000000000000FFFF00FFFFFFFFFFFFFFFFFFFFFFFFFFFFFFFFFFFFFF : Nat) =
        (2 ^ 152 - 1) ||| ((2 ^ 16 - 1) <<< 160) := by
    rw [lor_shiftLeft_eq_add _ 160 (by norm_num)]
    norm_num
  rw [hmask, Nat.and_or_distrib_left, land_shiftLeft,
    Nat.and_pow_two_sub_one_eq_mod, Nat.and_pow_two_sub_one_eq_mod,
    Nat.shiftRight_eq_div_pow]
  set v : Nat := if b then 1 else 0 with hv
  have hv1 : v ≤ 1 := by rw [hv]; cases b <;> simp
  rw [Nat.lor_assoc, Nat.lor_comm ((d / 2 ^ 160 % 2 ^ 16) <<< 160) (v <<< 152),
    ← Nat.lor_assoc]
  rw [lor_shiftLeft_eq_add v 152 (Nat.mod_lt _ (by norm_num))]
  rw [lor_shiftLeft_eq_add _ 160 (by
    have : d % 2 ^ 152 < 2 ^ 152 := Nat.mod_lt _ (by norm_num)
    omega)]

/-- `setPayOut` as a plain sum: bits 160..167 are replaced by the flag, bits
0..159 and 168..175 are kept, bits 176.. are cleared. -/
theorem setPayOut_eq_sum (d : Nat) (b : Bool) :
    setPayOut d b =
      d % 2 ^ 160 + (if b then 1 else 0) * 2 ^ 160 + d / 2 ^ 168 % 2 ^ 8 * 2 ^ 168 := by
  unfold setPayOut
  have hmask :
      (0x00000000000000000000FF00FFFFFFFFFFFFFFFFFFFFFFFFFFFFFFFFFFFFFFFF : Nat) =
        (2 ^ 160 - 1) ||| ((2 ^ 8 - 1) <<< 168) := by
    rw [lor_shiftLeft_eq_add _ 168 (by norm_num)]
    norm_num
  rw [hmask, Nat.and_or_distrib_left, land_shiftLeft,
    Nat.and_pow_two_sub_one_eq_mod, Nat.and_pow_two_sub_one_eq_mod,
    Nat.shiftRight_eq_div_pow]
  set v : Nat := if b then 1 else 0 with hv
  have hv1 : v ≤ 1 := by rw [hv]; cases b <;> simp
  rw [Nat.lor_assoc, Nat.lor_comm ((d / 2 ^ 168 % 2 ^ 8) <<< 168) (v <<< 160),
    ← Nat.lor_assoc]
  rw [lor_shiftLeft_eq_add v 160 (Nat.mod_lt _ (by norm_num))]
  rw [lor_shiftLeft_eq_add _ 168 (by
    have : d % 2 ^ 160 < 2 ^ 160 := Nat.mod_lt _ (by norm_num)
    omega)]

/-- Patching a byte range of a word keeps every bit outside the range
`[lo, hi)`: the patched word `x % 2^lo + v * 2^lo + x / 2^hi % 2^w * 2^hi`
agrees with `x` on all bits below `lo` and at or above `hi`. -/
theorem testBit_patch (x v lo hi w i : Nat) (hlohi : lo ≤ hi)
    (hv : v < 2 ^ (hi - lo)) (hx : x < 2 ^ (hi + w)) (hir : i < lo ∨ hi ≤ i) :
    (x % 2 ^ lo + v * 2 ^ lo + x / 2 ^ hi % 2 ^ w * 2 ^ hi).testBit i = x.testBit i := by
  have hmod_lo : x % 2 ^ lo < 2 ^ lo := Nat.mod_lt _ (Nat.pos_pow_of_pos _ (by omega))
  have ha : x % 2 ^ lo + v * 2 ^ lo < 2 ^ hi := by
    have h2 : v * 2 ^ lo ≤ (2 ^ (hi - lo) - 1) * 2 ^ lo :=
      Nat.mul_le_mul_right _ (by omega)
    have h3 : (2 ^ (hi - lo) - 1 + 1) * 2 ^ lo = 2 ^ hi := by
      rw [Nat.sub_add_cancel (Nat.one_le_two_pow), ← pow_add,
        Nat.sub_add_cancel hlohi]
    have h4 : 0 < (2 ^ lo : Nat) := Nat.pos_pow_of_pos _ (by omega)
    calc x % 2 ^ lo + v * 2 ^ lo
        < 2 ^ lo + (2 ^ (hi - lo) - 1) * 2 ^ lo := by omega
      _ = 2 ^ hi := by rw [← h3]; ring
  rw [testBit_add_mul_two_pow _ hi i ha]
  rcases hir with hlt | hge
  · have hih : i < hi := by omega
    rw [if_pos hih, testBit_add_mul_two_pow _ lo i hmod_lo, if_pos hlt,
      Nat.testBit_mod_two_pow]
    simp [hlt]
  · rw [if_neg (by omega), Nat.testBit_mod_two_pow]
    by_cases hw : i - hi < w
    · rw [← Nat.shiftRight_eq_div_pow, Nat.testBit_shiftRight,
        Nat.add_sub_cancel' hge]
      simp [hw]
    · have hx' : x.testBit i = false :=
        Nat.testBit_lt_two_pow
          (lt_of_lt_of_le hx (Nat.pow_le_pow_right (by omega) (by omega)))
      simp [hw, hx']

/-- Claim C3: constructing an `EVMSwapData` packs expiry, escrow nonce,
required confirmations, kind, pay-in flag, pay-out flag and index into the
single 256-bit `data` word per the documented layout, and the accessors
`getExpiry`, `getEscrowNonce`, `getConfirmations`, `getKind`, `isPayIn`,
`isPayOut` and `getIndex` recover exactly the original field values, for
every combination of field values within the layout widths
(`expiry, nonce < 2^64`, `confirmations < 2^16`, `kind, index < 2^8`). -/
theorem c3_pack_unpack_roundtrip (e n c k ix : Nat) (pi po : Bool)
    (he : e < 2 ^ 64) (hn : n < 2 ^ 64) (hc : c < 2 ^ 16) (hk : k < 2 ^ 8)
    (hix : ix < 2 ^ 8) :
    getExpiry (packData e n c k pi po ix) = e ∧
    getEscrowNonce (packData e n c k pi po ix) = n ∧
    getConfirmations (packData e n c k pi po ix) = c ∧
    getKind (packData e n c k pi po ix) = k ∧
    isPayIn (packData e n c k pi po ix) = pi ∧
    isPayOut (packData e n c k pi po ix) = po ∧
    getIndex (packData e n c k pi po ix) = ix := by
  cases pi <;> cases po <;>
    simp only [packData_eq_sum, getExpiry_eq, getEscrowNonce_eq,
      getConfirmations_eq, getKind_eq, isPayIn_eq, isPayOut_eq, getIndex_eq,
      if_true, if_false, Bool.false_eq_true, decide_eq_true_eq,
      decide_eq_false_iff_not, Nat.not_lt, Nat.le_zero] <;>
    refine ⟨by omega, by omega, by omega, by omega, by omega, by omega, by omega⟩

/-- Witness for claim C3, at concrete field values. -/
theorem c3_pack_unpack_roundtrip_witness :
    getExpiry (packData 1700000000 55 3 2 true false 9) = 1700000000 ∧
    getEscrowNonce (packData 1700000000 55 3 2 true false 9) = 55 ∧
    getConfirmations (packData 1700000000 55 3 2 true false 9) = 3 ∧
    getKind (packData 1700000000 55 3 2 true false 9) = 2 ∧
    isPayIn (packData 1700000000 55 3 2 true false 9) = true ∧
    isPayOut (packData 1700000000 55 3 2 true false 9) = false ∧
    getIndex (packData 1700000000 55 3 2 true false 9) = 9 :=
  c3_pack_unpack_roundtrip 1700000000 55 3 2 9 true false (by norm_num)
    (by norm_num) (by norm_num) (by norm_num) (by norm_num)

/-- Claim C10: for every packed data value below `2^176`, `setPayIn b`
changes only bits 152..159 (setting that byte to 1 if `b` is true, 0
otherwise) and leaves expiry, escrow nonce, confirmations, kind, the
pay-out flag and the index unchanged; symmetrically `setPayOut b` changes
only bits 160..167 and leaves every other field, including the pay-in flag
and the index, unchanged. -/
theorem c10_setters_frame (d : Nat) (b : Bool) (hd : d < 2 ^ 176) :
    (∀ i, i < 152 ∨ 160 ≤ i → (setPayIn d b).testBit i = d.testBit i) ∧
    (setPayIn d b >>> 152) &&& 0xFF = (if b then 1 else 0) ∧
    getExpiry (setPayIn d b) = getExpiry d ∧
    getEscrowNonce (setPayIn d b) = getEscrowNonce d ∧
    getConfirmations (setPayIn d b) = getConfirmations d ∧
    getKind (setPayIn d b) = getKind d ∧
    isPayOut (setPayIn d b) = isPayOut d ∧
    getIndex (setPayIn d b) = getIndex d ∧
    (∀ i, i < 160 ∨ 168 ≤ i → (setPayOut d b).testBit i = d.testBit i) ∧
    (setPayOut d b >>> 160) &&& 0xFF = (if b then 1 else 0) ∧
    getExpiry (setPayOut d b) = getExpiry d ∧
    getEscrowNonce (setPayOut d b) = getEscrowNonce d ∧
    getConfirmations (setPayOut d b) = getConfirmations d ∧
    getKind (setPayOut d b) = getKind d ∧
    isPayIn (setPayOut d b) = isPayIn d ∧
    getIndex (setPayOut d b) = getIndex d := by
  have hv1 : (if b then 1 else 0 : Nat) ≤ 1 := by cases b <;> simp
  refine ⟨?_, ?_, ?_, ?_, ?_, ?_, ?_, ?_, ?_, ?_, ?_, ?_, ?_, ?_, ?_, ?_⟩
  · intro i hir
    rw [setPayIn_eq_sum]
    exact testBit_patch d _ 152 160 16 i (by omega) (by omega) (by norm_num at hd ⊢; omega) hir
  · rw [show (0xFF : Nat) = 2 ^ 8 - 1 from by norm_num,
      Nat.and_pow_two_sub_one_eq_mod, Nat.shiftRight_eq_div_pow, setPayIn_eq_sum]
    set v : Nat := if b then 1 else 0
    omega
  · rw [getExpiry_eq, getExpiry_eq, setPayIn_eq_sum]
    set v : Nat := if b then 1 else 0
    omega
  · rw [getEscrowNonce_eq, getEscrowNonce_eq, setPayIn_eq_sum]
    set v : Nat := if b then 1 else 0
    omega
  · rw [getConfirmations_eq, getConfirmations_eq, setPayIn_eq_sum]
    set v : Nat := if b then 1 else 0
    omega
  · rw [getKind_eq, getKind_eq, setPayIn_eq_sum]
    set v : Nat := if b then 1 else 0
    omega
  · rw [isPayOut_eq, isPayOut_eq, setPayIn_eq_sum]
    set v : Nat := if b then 1 else 0
    have : (d % 2 ^ 152 + v * 2 ^ 152 + d / 2 ^ 160 % 2 ^ 16 * 2 ^ 160) / 2 ^ 160 % 2 ^ 8 =
        d / 2 ^ 160 % 2 ^ 8 := by omega
    rw [this]
  · rw [getIndex_eq, getIndex_eq, setPayIn_eq_sum]
    set v : Nat := if b then 1 else 0
    omega
  · intro i hir
    rw [setPayOut_eq_sum]
    exact testBit_patch d _ 160 168 8 i (by omega) (by omega) (by norm_num at hd ⊢; omega) hir
  · rw [show (0xFF : Nat) = 2 ^ 8 - 1 from by norm_num,
      Nat.and_pow_two_sub_one_eq_mod, Nat.shiftRight_eq_div_pow, setPayOut_eq_sum]
    set v : Nat := if b then 1 else 0
    omega
  · rw [getExpiry_eq, getExpiry_eq, setPayOut_eq_sum]
    set v : Nat := if b then 1 else 0
    omega
  · rw [getEscrowNonce_eq, getEscrowNonce_eq, setPayOut_eq_sum]
    set v : Nat := if b then 1 else 0
    omega
  · rw [getConfirmations_eq, getConfirmations_eq, setPayOut_eq_sum]
    set v : Nat := if b then 1 else 0
    omega
  · rw [getKind_eq, getKind_eq, setPayOut_eq_sum]
    set v : Nat := if b then 1 else 0
    omega
  · rw [isPayIn_eq, isPayIn_eq, setPayOut_eq_sum]
    set v : Nat := if b then 1 else 0
    have : (d % 2 ^ 160 + v * 2 ^ 160 + d / 2 ^ 168 % 2 ^ 8 * 2 ^ 168) / 2 ^ 152 % 2 ^ 8 =
        d / 2 ^ 152 % 2 ^ 8 := by omega
    rw [this]
  · rw [getIndex_eq, getIndex_eq, setPayOut_eq_sum]
    set v : Nat := if b then 1 else 0
    omega

/-- Witness for claim C10, at a concrete packed word. -/
theorem c10_setters_frame_witness :
    (3 : Nat) < 2 ^ 176 ∧
    (getExpiry (setPayIn 3 true) = getExpiry 3 ∧
      (setPayIn 3 true >>> 152) &&& 0xFF = 1) :=
  ⟨by norm_num,
    (c10_setters_frame 3 true (by norm_num)).2.2.1,
    (c10_setters_frame 3 true (by norm_num)).2.1⟩

end SwapDataWord

/-! ## EVMSwapProgram: swap records, commit status and authorizations -/

/-- A swap record (`EVMSwapData` object fields). -/
structure EVMSwapData where
  offerer : String
  claimer : String
  token : String
  amount : Nat
  paymentHash : String
  data : Nat
  securityDeposit : Nat
  claimerBounty : Nat
  txoHash : Option String

/-- `EVMSwapProgram.claimGracePeriod` (10 minutes). -/
def claimGracePeriod : Int := 10 * 60

/-- `EVMSwapProgram.refundGracePeriod` (10 minutes). -/
def refundGracePeriod : Int := 10 * 60

/-- `EVMSwapProgram.authGracePeriod` (5 minutes). -/
def authGracePeriod : Int := 5 * 60

/-- `SwapCommitStatus` from crosslightning-base. -/
inductive SwapCommitStatus where
  | PAID
  | COMMITED
  | REFUNDABLE
  | EXPIRED
  | NOT_COMMITED
deriving DecidableEq, Repr

/-- Model of the JS `String.prototype.toLowerCase()` used on recovered
addresses (hex ASCII): lowercase every character.  Identical in behaviour
to `String.toLower`, but defined by structural list recursion so that it
evaluates on concrete inputs. -/
def lowerStr (s : String) : String := ⟨s.data.map Char.toLower⟩

/-- The on-chain context an `EVMSwapProgram` instance reads: the signer's
address, the local clock, the contract's commitment storage, and the
(abstract keccak) commit hash of a swap record. -/
structure ChainEnv where
  address : String
  nowSec : Int
  getCommitment : String → Nat
  commitHash : EVMSwapData → Nat

/-- `EVMSwapProgram.isExpired`: the comparison timestamp starts at 0, is
moved to `now − refundGracePeriod` for the offerer and then to
`now + claimGracePeriod` for the claimer (the claimer branch runs second
and wins when the caller is both). -/
def isExpired (address : String) (nowSec : Int) (data : EVMSwapData) : Bool :=
  let t1 : Int := 0
  let t2 : Int := if data.offerer = address then nowSec - refundGracePeriod else t1
  let t3 : Int := if data.claimer = address then nowSec + claimGracePeriod else t2
  decide ((SwapDataWord.getExpiry data.data : Int) < t3)

/-- `EVMSwapProgram.getCommitStatus`. -/
def getCommitStatus (env : ChainEnv) (data : EVMSwapData) : SwapCommitStatus :=
  let commitNum := env.getCommitment data.paymentHash
  if commitNum = 0x100 then .PAID
  else if commitNum < 0x100 then
    if isExpired env.address env.nowSec data then .EXPIRED else .NOT_COMMITED
  else if commitNum = env.commitHash data then
    if data.offerer = env.address then
      if isExpired env.address env.nowSec data then .REFUNDABLE else .COMMITED
    else .COMMITED
  else
    if data.offerer = env.address then
      if isExpired env.address env.nowSec data then .EXPIRED else .NOT_COMMITED
    else .NOT_COMMITED

/-- The context the authorization verifiers read: the local clock, the
contract's commitment storage, and the two abstract ethers crypto
operations — `getMessage` (keccak over the solidity-packed prefix, commit
hash and timeout) and `verifyMessage` (personal-message signature
recovery), parametrized over the message type `Msg`. -/
structure AuthEnv (Msg : Type) where
  nowSec : Int
  getCommitment : String → Nat
  getMessage : EVMSwapData → String → Int → Msg
  verifyMessage : Msg → String → String

/-- The distinct `SignatureVerificationError` messages thrown by the
authorization verifiers. -/
inductive AuthError where
  | invalidPfx
  | authExpired
  | expiresTooSoon
  | invalidNonce
  | invalidSignature
deriving DecidableEq, Repr

/-- `EVMSwapProgram.isValidClaimInitAuthorization`. -/
def isValidClaimInitAuthorization {Msg : Type} (env : AuthEnv Msg)
    (data : EVMSwapData) (timeout : Int) (pfx : String) (signature : String) :
    Except AuthError Msg :=
  if pfx ≠ "claim_initialize" then .error .invalidPfx
  else if timeout - env.nowSec < authGracePeriod then .error .authExpired
  else if env.getCommitment data.paymentHash ≠ SwapDataWord.getIndex data.data then
    .error .invalidNonce
  else
    let messageBuffer := env.getMessage data pfx timeout
    if lowerStr (env.verifyMessage messageBuffer signature) ≠ lowerStr data.claimer then
      .error .invalidSignature
    else .ok messageBuffer

/-- `EVMSwapProgram.isValidInitAuthorization`. -/
def isValidInitAuthorization {Msg : Type} (env : AuthEnv Msg)
    (data : EVMSwapData) (timeout : Int) (pfx : String) (signature : String) :
    Except AuthError Msg :=
  if pfx ≠ "initialize" then .error .invalidPfx
  else if timeout - env.nowSec < authGracePeriod then .error .authExpired
  else if (SwapDataWord.getExpiry data.data : Int) - env.nowSec <
      authGracePeriod + claimGracePeriod then .error .expiresTooSoon
  else if env.getCommitment data.paymentHash ≠ SwapDataWord.getIndex data.data then
    .error .invalidNonce
  else
    let messageBuffer := env.getMessage data pfx timeout
    if lowerStr (env.verifyMessage messageBuffer signature) ≠ lowerStr data.offerer then
      .error .invalidSignature
    else .ok messageBuffer

/-- `EVMSwapProgram.isValidRefundAuthorization`. -/
def isValidRefundAuthorization {Msg : Type} (env : AuthEnv Msg)
    (swapData : EVMSwapData) (timeout : Int) (pfx : String) (signature : String) :
    Except AuthError Msg :=
  if pfx ≠ "refund" then .error .invalidPfx
  else if timeout - env.nowSec < authGracePeriod then .error .authExpired
  else
    let messageBuffer := env.getMessage swapData pfx timeout
    if lowerStr (env.verifyMessage messageBuffer signature) ≠ lowerStr swapData.claimer then
      .error .invalidSignature
    else .ok messageBuffer

/-- Claim C5: with the proper prefix, `isValidInitAuthorization` and
`isValidClaimInitAuthorization` fail with `SignatureVerification`
("Authorization expired") exactly when `timeout − now < authGracePeriod`,
whose default is 300 seconds. -/
theorem c5_authorization_expiry {Msg : Type} (env : AuthEnv Msg)
    (data : EVMSwapData) (timeout : Int) (sig : String) :
    authGracePeriod = 300 ∧
    (isValidInitAuthorization env data timeout "initialize" sig =
        .error .authExpired ↔ timeout - env.nowSec < 300) ∧
    (isValidClaimInitAuthorization env data timeout "claim_initialize" sig =
        .error .authExpired ↔ timeout - env.nowSec < 300) := by
  refine ⟨rfl, ?_, ?_⟩ <;>
  · dsimp only [isValidInitAuthorization, isValidClaimInitAuthorization]
    rw [if_neg (by simp)]
    split_ifs <;>
      simp_all [authGracePeriod, claimGracePeriod]

/-- Claim C4: once the prefix, expiry and (for init) swap-expiry checks
pass, `isValidInitAuthorization` and `isValidClaimInitAuthorization` fail
with `SignatureVerification` ("Invalid nonce") if and only if the
contract's stored commitment at the swap's payment hash differs from the
swap's `data.index`. -/
theorem c4_invalid_nonce {Msg : Type} (env : AuthEnv Msg) (data : EVMSwapData)
    (timeout : Int) (sig : String)
    (h1 : ¬ (timeout - env.nowSec < authGracePeriod))
    (h2 : ¬ ((SwapDataWord.getExpiry data.data : Int) - env.nowSec <
      authGracePeriod + claimGracePeriod)) :
    (isValidInitAuthorization env data timeout "initialize" sig =
        .error .invalidNonce ↔
      env.getCommitment data.paymentHash ≠ SwapDataWord.getIndex data.data) ∧
    (isValidClaimInitAuthorization env data timeout "claim_initialize" sig =
        .error .invalidNonce ↔
      env.getCommitment data.paymentHash ≠ SwapDataWord.getIndex data.data) := by
  constructor <;>
  · dsimp only [isValidInitAuthorization, isValidClaimInitAuthorization]
    rw [if_neg (by simp), if_neg h1]
    first
      | (rw [if_neg h2]; split_ifs with h3 h4 <;> simp_all)
      | (split_ifs with h3 h4 <;> simp_all)

/-- Witness for claim C4: on-chain commitment 7 against `data.index` 6 is
rejected as an invalid nonce (scenario S5). -/
theorem c4_invalid_nonce_witness :
    (¬ ((1000 : Int) - 0 < authGracePeriod)) ∧
    (¬ (((SwapDataWord.getExpiry (2000 + 6 * 2 ^ 168) : Nat) : Int) - 0 <
      authGracePeriod + claimGracePeriod)) ∧
    ((7 : Nat) ≠ SwapDataWord.getIndex (2000 + 6 * 2 ^ 168)) ∧
    (isValidInitAuthorization
        (⟨0, fun _ => 7, fun _ _ _ => 0, fun _ _ => "r"⟩ : AuthEnv Nat)
        ⟨"a", "b", "t", 0, "p", 2000 + 6 * 2 ^ 168, 0, 0, none⟩ 1000 "initialize" "s" =
          .error .invalidNonce ↔
      (7 : Nat) ≠ SwapDataWord.getIndex (2000 + 6 * 2 ^ 168)) :=
  ⟨by decide, by decide, by decide,
    (c4_invalid_nonce
      (⟨0, fun _ => 7, fun _ _ _ => 0, fun _ _ => "r"⟩ : AuthEnv Nat)
      ⟨"a", "b", "t", 0, "p", 2000 + 6 * 2 ^ 168, 0, 0, none⟩ 1000 "s"
      (by decide) (by decide)).1⟩

/-- Claim C1 fails on the code: a refund authorization whose recovered
address equals the swap's offerer (here both lowercase "a") but not the
swap's claimer ("b") is rejected with `SignatureVerification`
("Invalid signature"), although prefix and timeout are valid — the code
compares the recovered address against the claimer, not the offerer. -/
theorem c1_counterexample :
    (¬ ((1000 : Int) - 0 < authGracePeriod)) ∧
    lowerStr "a" = lowerStr "a" ∧
    isValidRefundAuthorization
        (⟨0, fun _ => 0, fun _ _ _ => 0, fun _ _ => "a"⟩ : AuthEnv Nat)
        ⟨"a", "b", "t", 0, "p", 0, 0, 0, none⟩ 1000 "refund" "s" =
      .error .invalidSignature :=
  ⟨by decide, rfl, rfl⟩

/-- Claim C1 (amended): for every swap record and refund authorization with
prefix "refund" and timeout at least `authGracePeriod` in the future,
`isValidRefundAuthorization` succeeds if and only if the address recovered
from the personal-message signature equals (lowercased) the swap's
*claimer*; when they differ it raises `SignatureVerification`
("Invalid signature"). -/
theorem c1_refund_auth_checks_claimer {Msg : Type} (env : AuthEnv Msg)
    (swapData : EVMSwapData) (timeout : Int) (sig : String)
    (ht : ¬ (timeout - env.nowSec < authGracePeriod)) :
    (isValidRefundAuthorization env swapData timeout "refund" sig =
        .ok (env.getMessage swapData "refund" timeout) ↔
      lowerStr (env.verifyMessage (env.getMessage swapData "refund" timeout) sig) =
        lowerStr swapData.claimer) ∧
    (lowerStr (env.verifyMessage (env.getMessage swapData "refund" timeout) sig) ≠
        lowerStr swapData.claimer →
      isValidRefundAuthorization env swapData timeout "refund" sig =
        .error .invalidSignature) := by
  dsimp only [isValidRefundAuthorization]
  rw [if_neg (by simp), if_neg ht]
  split_ifs with h <;> simp_all

/-- Witness for amended claim C1: recovered address "B" matches claimer "b"
after lowercasing, so the refund authorization verifies. -/
theorem c1_refund_auth_checks_claimer_witness :
    (¬ ((1000 : Int) - 0 < authGracePeriod)) ∧
    (isValidRefundAuthorization
        (⟨0, fun _ => 0, fun _ _ _ => 5, fun _ _ => "B"⟩ : AuthEnv Nat)
        ⟨"a", "b", "t", 0, "p", 0, 0, 0, none⟩ 1000 "refund" "s" = .ok 5 ↔
      lowerStr "B" = lowerStr "b") :=
  ⟨by decide,
    (c1_refund_auth_checks_claimer
      (⟨0, fun _ => 0, fun _ _ _ => 5, fun _ _ => "B"⟩ : AuthEnv Nat)
      ⟨"a", "b", "t", 0, "p", 0, 0, 0, none⟩ 1000 "s" (by decide)).1⟩

/-- Claim C2 fails on the code, in both directions.  First, when the
on-chain commitment is below 0x100 and the caller is the swap's *claimer*
(not the offerer), `getCommitStatus` can still return EXPIRED (the code
reaches `isExpired` without an offerer check, and the claimer comparison
point is `now + claimGracePeriod`).  Second, a caller that is the offerer
with `expiry − refund_grace < now < expiry + refund_grace` gets
NOT_COMMITTED although the claim predicts EXPIRED (the code compares
against `now − refundGracePeriod`, not `now + refundGracePeriod`). -/
theorem c2_counterexample :
    ((5 : Nat) < 0x100 ∧ "b" ≠ "a" ∧
      getCommitStatus ⟨"b", 2000, fun _ => 5, fun _ => 0⟩
        ⟨"a", "b", "t", 0, "p", 1000, 0, 0, none⟩ = .EXPIRED) ∧
    ((5 : Nat) < 0x100 ∧ (1300 : Int) > 1000 - refundGracePeriod ∧
      getCommitStatus ⟨"a", 1300, fun _ => 5, fun _ => 0⟩
        ⟨"a", "c", "t", 0, "p", 1000, 0, 0, none⟩ = .NOT_COMMITED) :=
  ⟨⟨by decide, by decide, rfl⟩, ⟨by decide, by decide, rfl⟩⟩

/-- Claim C2 (amended): when the on-chain commitment value at the swap's
payment hash is strictly below 0x100, `getCommitStatus` returns either
EXPIRED or NOT_COMMITTED; it returns EXPIRED exactly when `isExpired`
holds for the caller — the caller is the swap's claimer and the local
clock is past `expiry − claimGracePeriod`, or the caller is the swap's
offerer (and not its claimer) and the local clock is past
`expiry + refundGracePeriod`.  In particular a caller that is neither
offerer nor claimer always gets NOT_COMMITTED in this branch. -/
theorem c2_commit_status_low_branch (env : ChainEnv) (swap : EVMSwapData)
    (hlow : env.getCommitment swap.paymentHash < 0x100) :
    (getCommitStatus env swap = .EXPIRED ∨
      getCommitStatus env swap = .NOT_COMMITED) ∧
    (getCommitStatus env swap = .EXPIRED ↔
      ((swap.claimer = env.address ∧
          (SwapDataWord.getExpiry swap.data : Int) < env.nowSec + claimGracePeriod) ∨
        (swap.claimer ≠ env.address ∧ swap.offerer = env.address ∧
          (SwapDataWord.getExpiry swap.data : Int) < env.nowSec - refundGracePeriod))) := by
  have hne : env.getCommitment swap.paymentHash ≠ 0x100 := by omega
  dsimp only [getCommitStatus, isExpired]
  rw [if_neg hne, if_pos hlow]
  by_cases hc : swap.claimer = env.address <;>
    by_cases ho : swap.offerer = env.address
  all_goals split_ifs <;> simp_all <;> try omega

/-- Witness for amended claim C2: commitment value 5, a caller that is
neither offerer nor claimer, so the status is NOT_COMMITTED. -/
theorem c2_commit_status_low_branch_witness :
    ((5 : Nat) < 0x100) ∧
    (getCommitStatus ⟨"x", 2000, fun _ => 5, fun _ => 0⟩
        ⟨"a", "b", "t", 0, "p", 1000, 0, 0, none⟩ = .EXPIRED ∨
      getCommitStatus ⟨"x", 2000, fun _ => 5, fun _ => 0⟩
        ⟨"a", "b", "t", 0, "p", 1000, 0, 0, none⟩ = .NOT_COMMITED) :=
  ⟨by decide,
    (c2_commit_status_low_branch ⟨"x", 2000, fun _ => 5, fun _ => 0⟩
      ⟨"a", "b", "t", 0, "p", 1000, 0, 0, none⟩ (by decide)).1⟩

/-! ## EVMBtcRelay: fork-header submission, tip decoding and sync fee

Translated from the relay client source (`EVMBtcRelay`).  The stored-header
type `H` and raw-header type `B` are kept abstract, together with
`computeNext` (`EVMBtcStoredHeader.computeNext`, which lives outside this
repository) and the projection `chainWork`. -/

namespace Relay

/-- The loop that precomputes the stored-header chain: it starts from the
given previous stored header and repeatedly pushes
`computeNext (previous last) header`. -/
def computedCommitedHeaders {H B : Type} (computeNext : H → B → H)
    (storedHeader : H) : List B → List H
  | [] => [storedHeader]
  | b :: bs => storedHeader :: computedCommitedHeaders computeNext (computeNext storedHeader b) bs

/-- Modelled from the spec: `StatePredictorUtils.gtBuffer` comes from
crosslightning-base, which is not part of this repository; per the spec's
promotion rule it decides `last.chain_work > tip_work` on the two
big-endian chain-work buffers, i.e. numeric strict greater-than. -/
def gtBuffer (a b : Nat) : Bool := decide (a > b)

/-- Result of a fork-header submission preparation (transaction omitted). -/
structure ForkSaveResult (H : Type) where
  forkId : Nat
  lastStoredHeader : H
  computedCommitedHeaders : List H

/-- `EVMBtcRelay.saveNewForkHeaders`: `forkId` is first read from the
contract's `_forkCounter`, the stored-header chain is precomputed, and if
the last precomputed header's chain work exceeds `tipWork` the fork id is
overwritten with 0. -/
def saveNewForkHeaders {H B : Type} (computeNext : H → B → H)
    (chainWork : H → Nat) (forkCounter : Nat) (forkHeaders : List B)
    (storedHeader : H) (tipWork : Nat) : ForkSaveResult H :=
  let forkId := forkCounter
  let computed := computedCommitedHeaders computeNext storedHeader forkHeaders
  let changedCommitedHeader := computed.getLastD storedHeader
  let forkId := if gtBuffer (chainWork changedCommitedHeader) tipWork then 0 else forkId
  ⟨forkId, changedCommitedHeader, computed⟩

/-- `EVMBtcRelay.saveForkHeaders`: same as `saveNewForkHeaders` but with a
caller-supplied fork id. -/
def saveForkHeaders {H B : Type} (computeNext : H → B → H)
    (chainWork : H → Nat) (forkHeaders : List B) (storedHeader : H)
    (forkId : Nat) (tipWork : Nat) : ForkSaveResult H :=
  let computed := computedCommitedHeaders computeNext storedHeader forkHeaders
  let changedCommitedHeader := computed.getLastD storedHeader
  let forkId' := if gtBuffer (chainWork changedCommitedHeader) tipWork then 0 else forkId
  ⟨forkId', changedCommitedHeader, computed⟩

/-- Decoded relay tip data. -/
structure TipData where
  commitHash : String
  chainWork : Nat
  blockheight : Nat

/-- `EVMBtcRelay.getTipData`: decode the packed `_highScoreAndBlockHeight`
word and return `none` when the decoded height is zero. -/
def getTipData (highScoreAndBlockHeight : Nat)
    (latestMainChainCommitmentHash : String) : Option TipData :=
  let chainWork := highScoreAndBlockHeight &&&
    0x00000000FFFFFFFFFFFFFFFFFFFFFFFFFFFFFFFFFFFFFFFFFFFFFFFFFFFFFFFF
  let blockheight := highScoreAndBlockHeight >>> 224
  if blockheight = 0 then none
  else some ⟨latestMainChainCommitmentHash.drop 2, chainWork, blockheight⟩

/-- `GAS_PER_BLOCKHEADER`. -/
def GAS_PER_BLOCKHEADER : Int := 35000

/-- `EVMBtcRelay.estimateSynchronizeFee`: the relay's current height comes
from the top 32 bits of `_highScoreAndBlockHeight`; the fee is zero when
already caught up, else `delta * GAS_PER_BLOCKHEADER * gasPrice`. -/
def estimateSynchronizeFee (highScoreAndBlockHeight : Nat)
    (requiredBlockheight : Int) (gasPrice : Nat) : Int :=
  let currBlockheight : Int := ((highScoreAndBlockHeight >>> 224 : Nat) : Int)
  let blockheightDelta := requiredBlockheight - currBlockheight
  if blockheightDelta ≤ 0 then 0
  else blockheightDelta * GAS_PER_BLOCKHEADER * gasPrice

/-- Length of the precomputed chain. -/
theorem computedCommitedHeaders_length {H B : Type} (f : H → B → H) (s : H)
    (l : List B) : (computedCommitedHeaders f s l).length = l.length + 1 := by
  induction l generalizing s with
  | nil => rfl
  | cons b bs ih => simp [computedCommitedHeaders, ih]

/-- The last precomputed header is the left fold of `computeNext`. -/
theorem computedCommitedHeaders_getLastD {H B : Type} (f : H → B → H) (s x : H)
    (l : List B) :
    (computedCommitedHeaders f s l).getLastD x = List.foldl f s l := by
  induction l generalizing s x with
  | nil => rfl
  | cons b bs ih =>
    rw [computedCommitedHeaders, List.getLastD_cons, ih]
    rfl

/-- The `i`-th precomputed header is the fold over the first `i` raw
headers. -/
theorem computedCommitedHeaders_getElem {H B : Type} (f : H → B → H) (s : H)
    (l : List B) (i : Nat) (hi : i ≤ l.length) :
    (computedCommitedHeaders f s l)[i]? = some (List.foldl f s (l.take i)) := by
  induction l generalizing s i with
  | nil =>
    have : i = 0 := by simpa using hi
    subst this
    rfl
  | cons b bs ih =>
    cases i with
    | zero => simp [computedCommitedHeaders]
    | succ j =>
      rw [computedCommitedHeaders, List.getElem?_cons_succ, ih _ _ (by simpa using hi)]
      rfl

/-- Claim C7: for every non-empty list of fork headers, `saveNewForkHeaders`
and `saveForkHeaders` precompute the stored-header chain by repeatedly
applying `computeNext` from the given previous stored header (the `i`-th
precomputed header is the fold over the first `i` raw headers), return the
last precomputed header as `lastStoredHeader`, and return fork id 0 when
that last header's chain work strictly exceeds `tipWork`; otherwise the
fork id is the contract's fork counter (`saveNewForkHeaders`) resp. the
caller-supplied fork id (`saveForkHeaders`). -/
theorem c7_fork_headers_precompute {H B : Type} (computeNext : H → B → H)
    (chainWork : H → Nat) (forkCounter forkIdArg : Nat) (forkHeaders : List B)
    (storedHeader : H) (tipWork : Nat) (_hne : forkHeaders ≠ []) :
    (saveNewForkHeaders computeNext chainWork forkCounter forkHeaders storedHeader
        tipWork).computedCommitedHeaders.length = forkHeaders.length + 1 ∧
    (∀ i, i ≤ forkHeaders.length →
      (saveNewForkHeaders computeNext chainWork forkCounter forkHeaders storedHeader
          tipWork).computedCommitedHeaders[i]? =
        some (List.foldl computeNext storedHeader (forkHeaders.take i))) ∧
    (saveNewForkHeaders computeNext chainWork forkCounter forkHeaders storedHeader
        tipWork).lastStoredHeader = List.foldl computeNext storedHeader forkHeaders ∧
    (saveNewForkHeaders computeNext chainWork forkCounter forkHeaders storedHeader
        tipWork).forkId =
      (if chainWork (List.foldl computeNext storedHeader forkHeaders) > tipWork
        then 0 else forkCounter) ∧
    (saveForkHeaders computeNext chainWork forkHeaders storedHeader forkIdArg
        tipWork).computedCommitedHeaders.length = forkHeaders.length + 1 ∧
    (∀ i, i ≤ forkHeaders.length →
      (saveForkHeaders computeNext chainWork forkHeaders storedHeader forkIdArg
          tipWork).computedCommitedHeaders[i]? =
        some (List.foldl computeNext storedHeader (forkHeaders.take i))) ∧
    (saveForkHeaders computeNext chainWork forkHeaders storedHeader forkIdArg
        tipWork).lastStoredHeader = List.foldl computeNext storedHeader forkHeaders ∧
    (saveForkHeaders computeNext chainWork forkHeaders storedHeader forkIdArg
        tipWork).forkId =
      (if chainWork (List.foldl computeNext storedHeader forkHeaders) > tipWork
        then 0 else forkIdArg) := by
  have hlast := computedCommitedHeaders_getLastD computeNext storedHeader storedHeader forkHeaders
  refine ⟨?_, ?_, ?_, ?_, ?_, ?_, ?_, ?_⟩
  · exact computedCommitedHeaders_length computeNext storedHeader forkHeaders
  · intro i hi
    exact computedCommitedHeaders_getElem computeNext storedHeader forkHeaders i hi
  · simpa [saveNewForkHeaders] using hlast
  · simp only [saveNewForkHeaders, gtBuffer, hlast]
    by_cases h : chainWork (List.foldl computeNext storedHeader forkHeaders) > tipWork <;>
      simp [h]
  · exact computedCommitedHeaders_length computeNext storedHeader forkHeaders
  · intro i hi
    exact computedCommitedHeaders_getElem computeNext storedHeader forkHeaders i hi
  · simpa [saveForkHeaders] using hlast
  · simp only [saveForkHeaders, gtBuffer, hlast]
    by_cases h : chainWork (List.foldl computeNext storedHeader forkHeaders) > tipWork <;>
      simp [h]

/-- Witness for claim C7: one fork header over `Nat` headers, where
`computeNext` adds the raw value and `chainWork` is the header itself; the
precomputed tail has work 30 > 7, so the fork id is promoted to 0. -/
theorem c7_fork_headers_precompute_witness :
    ([(10 : Nat)] ≠ ([] : List Nat)) ∧
    (saveNewForkHeaders (fun h b => h + b) (fun h => h) 4 [(10 : Nat)] (20 : Nat)
        7).forkId = (if (20 + 10 : Nat) > 7 then 0 else 4) :=
  ⟨by decide,
    (c7_fork_headers_precompute (fun h b => h + b) (fun h => h) 4 9 [(10 : Nat)]
      (20 : Nat) 7 (by decide)).2.2.2.1⟩

/-- Claim C9: `getTipData` decodes the block height from the top 32 bits of
the packed tip word and the chain work from its lower 224 bits, and
returns `none` exactly when the decoded height is zero; otherwise it
returns the commit hash (with the `0x` stripped), chain work and height. -/
theorem c9_getTipData (word : Nat) (commitStr : String) (hw : word < 2 ^ 256) :
    (getTipData word commitStr = none ↔ word / 2 ^ 224 = 0) ∧
    (∀ t, getTipData word commitStr = some t →
      t.blockheight = word / 2 ^ 224 ∧ t.blockheight < 2 ^ 32 ∧
      t.chainWork = word % 2 ^ 224 ∧ t.commitHash = commitStr.drop 2) := by
  have hm : (0x00000000FFFFFFFFFFFFFFFFFFFFFFFFFFFFFFFFFFFFFFFFFFFFFFFFFFFFFFFF : Nat) =
      2 ^ 224 - 1 := by norm_num
  dsimp only [getTipData]
  rw [hm, Nat.and_pow_two_sub_one_eq_mod, Nat.shiftRight_eq_div_pow]
  by_cases h : word / 2 ^ 224 = 0
  · rw [if_pos h]
    refine ⟨⟨fun _ => h, fun _ => rfl⟩, fun t ht => Option.noConfusion ht⟩
  · rw [if_neg h]
    refine ⟨⟨fun hsome => Option.noConfusion hsome, fun h0 => absurd h0 h⟩, ?_⟩
    intro t ht
    have heq := Option.some.inj ht
    subst heq
    refine ⟨rfl, ?_, rfl, rfl⟩
    show word / 2 ^ 224 < 2 ^ 32
    omega

/-- Witness for claim C9: a concrete packed word with height 3 and chain
work 42. -/
theorem c9_getTipData_witness :
    ((3 * 2 ^ 224 + 42 : Nat) < 2 ^ 256) ∧
    (getTipData (3 * 2 ^ 224 + 42) "0xabcd" = none ↔
      (3 * 2 ^ 224 + 42 : Nat) / 2 ^ 224 = 0) :=
  ⟨by norm_num, (c9_getTipData (3 * 2 ^ 224 + 42) "0xabcd" (by norm_num)).1⟩

/-- Claim C8: `estimateSynchronizeFee` returns
`(target − current) * 35000 * gasPrice` when the target height is strictly
above the relay's current height (the top 32 bits of the packed word), and
exactly zero when the relay is at or above the target. -/
theorem c8_estimateSynchronizeFee (word : Nat) (required : Int) (gasPrice : Nat) :
    (((word >>> 224 : Nat) : Int) < required →
      estimateSynchronizeFee word required gasPrice =
        (required - ((word >>> 224 : Nat) : Int)) * 35000 * gasPrice) ∧
    (required ≤ ((word >>> 224 : Nat) : Int) →
      estimateSynchronizeFee word required gasPrice = 0) := by
  dsimp only [estimateSynchronizeFee, GAS_PER_BLOCKHEADER]
  constructor
  · intro h
    rw [if_neg (by omega)]
  · intro h
    rw [if_pos (by omega)]

/-- Witness for claim C8, covering both the behind case (height 5, target
7) and the caught-up case (height 5, target 4). -/
theorem c8_estimateSynchronizeFee_witness :
    ((((5 * 2 ^ 224 : Nat) >>> 224 : Nat) : Int) < 7 ∧
      estimateSynchronizeFee (5 * 2 ^ 224) 7 10 =
        ((7 : Int) - (((5 * 2 ^ 224 : Nat) >>> 224 : Nat) : Int)) * 35000 * 10) ∧
    ((4 : Int) ≤ (((5 * 2 ^ 224 : Nat) >>> 224 : Nat) : Int) ∧
      estimateSynchronizeFee (5 * 2 ^ 224) 4 10 = 0) :=
  ⟨⟨by decide, (c8_estimateSynchronizeFee (5 * 2 ^ 224) 7 10).1 (by decide)⟩,
    ⟨by decide, (c8_estimateSynchronizeFee (5 * 2 ^ 224) 4 10).2 (by decide)⟩⟩

end Relay

/-! ## getHashForOnchain: the on-chain output hash

`EVMSwapProgram.getHashForOnchain` manipulates hex strings and byte
buffers.  Hex strings are modelled as lists of hex-digit values (0..15),
byte buffers as lists of byte values (0..255); `keccak256` (inside ethers'
`solidityKeccak256`) is an abstract parameter from bytes to bytes. -/

namespace OnchainHash

/-- Little-endian hex digits of a number, `[]` for zero (the digits of
JS `toString(16)` before reversal). -/
def hexLE (n : Nat) : List Nat :=
  if h : n = 0 then [] else n % 16 :: hexLE (n / 16)
decreasing_by exact Nat.div_lt_self (Nat.pos_of_ne_zero h) (by norm_num)

/-- JS `Number`/`BN` `.toString(16)`: big-endian hex digits, `"0"` for
zero. -/
def hexDigits (n : Nat) : List Nat :=
  if n = 0 then [0] else (hexLE n).reverse

/-- JS `.padStart(16, '0')`. -/
def padStart16 (l : List Nat) : List Nat := List.replicate (16 - l.length) 0 ++ l

/-- `Buffer.from(hexString, 'hex')`: pair up hex digits into bytes. -/
def pairsToBytes : List Nat → List Nat
  | a :: b :: rest => (16 * a + b) :: pairsToBytes rest
  | _ => []

/-- `Buffer.toString('hex')`: two hex digits per byte. -/
def bytesToHexDigits (l : List Nat) : List Nat := l.flatMap fun b => [b / 16, b % 16]

/-- Fixed-width little-endian bytes of a number. -/
def bytesLE : Nat → Nat → List Nat
  | 0, _ => []
  | w + 1, n => n % 256 :: bytesLE w (n / 256)

/-- Fixed-width big-endian bytes of a number. -/
def bytesBE (w n : Nat) : List Nat := (bytesLE w n).reverse

/-- Fixed-width little-endian hex digits of a number. -/
def hexPadLE : Nat → Nat → List Nat
  | 0, _ => []
  | k + 1, n => n % 16 :: hexPadLE k (n / 16)

/-- ethers `utils.solidityKeccak256(['bytes'], ['0x' + hex])` with the
keccak permutation abstract: parse the hex digits to bytes, hash, and
render the digest back as hex digits (`0x` prefix left implicit). -/
def solidityKeccak256 (keccak : List Nat → List Nat) (hex : List Nat) : List Nat :=
  bytesToHexDigits (keccak (pairsToBytes hex))

/-- `EVMSwapProgram.getHashForOnchain`: build the little-endian amount
buffer from the padded hex of `amount` reversed, hash it with the output
script into `txoHash`, then hash the padded big-endian hex of `nonce`
concatenated with `txoHash`, returning the digest bytes. -/
def getHashForOnchain (keccak : List Nat → List Nat) (outputScript : List Nat)
    (amount nonce : Nat) : List Nat :=
  let amountBuffer := (pairsToBytes (padStart16 (hexDigits amount))).reverse
  let txoHash := solidityKeccak256 keccak (bytesToHexDigits (amountBuffer ++ outputScript))
  let nonceHexString := padStart16 (hexDigits nonce)
  let hash := solidityKeccak256 keccak (nonceHexString ++ txoHash)
  pairsToBytes hash

/-- Bytes survive the round trip through their hex rendering. -/
theorem pairsToBytes_bytesToHexDigits (l : List Nat) :
    pairsToBytes (bytesToHexDigits l) = l := by
  induction l with
  | nil => rfl
  | cons b t ih =>
    show pairsToBytes (b / 16 :: b % 16 :: t.flatMap _) = b :: t
    rw [pairsToBytes]
    rw [show (16 * (b / 16) + b % 16) = b by omega]
    exact congrArg (b :: ·) ih

/-- `pairsToBytes` distributes over appending after an even-length list. -/
theorem pairsToBytes_append : ∀ (a b : List Nat), a.length % 2 = 0 →
    pairsToBytes (a ++ b) = pairsToBytes a ++ pairsToBytes b
  | [], _, _ => rfl
  | [x], _, h => by simp at h
  | x :: y :: t, b, h => by
    show pairsToBytes (x :: y :: (t ++ b)) = pairsToBytes (x :: y :: t) ++ _
    rw [pairsToBytes, pairsToBytes, List.cons_append,
      pairsToBytes_append t b (by simp only [List.length_cons] at h; omega)]

/-- Zero padded to a fixed width is all zero digits. -/
theorem hexPadLE_zero : ∀ k, hexPadLE k 0 = List.replicate k 0
  | 0 => rfl
  | k + 1 => by rw [hexPadLE, Nat.zero_mod, Nat.zero_div, hexPadLE_zero k]; rfl

/-- Length of the fixed-width hex rendering. -/
theorem hexPadLE_length : ∀ k n, (hexPadLE k n).length = k
  | 0, _ => rfl
  | k + 1, n => by rw [hexPadLE, List.length_cons, hexPadLE_length k]

/-- Padding the little-endian digits with zeros gives the fixed-width
rendering, for numbers within the width. -/
theorem hexLE_pad (k : Nat) : ∀ n, n < 16 ^ k →
    hexLE n ++ List.replicate (k - (hexLE n).length) 0 = hexPadLE k n := by
  induction k with
  | zero =>
    intro n hn
    have : n = 0 := by simpa using hn
    subst this
    rw [hexLE]
    rfl
  | succ k ih =>
    intro n hn
    by_cases h0 : n = 0
    · subst h0
      rw [hexLE, hexPadLE_zero]
      simp
    · rw [hexLE, dif_neg h0, hexPadLE]
      have hdiv : n / 16 < 16 ^ k := by
        have : n < 16 ^ k * 16 := by
          rw [← pow_succ]
          exact hn
        exact Nat.div_lt_of_lt_mul (by omega)
      rw [List.cons_append, List.length_cons]
      rw [show k + 1 - ((hexLE (n / 16)).length + 1) = k - (hexLE (n / 16)).length by omega]
      rw [ih (n / 16) hdiv]

/-- The JS `toString(16).padStart(16, '0')` is the reverse of the 16-digit
little-endian rendering, for numbers below `2 ^ 64`. -/
theorem padStart16_hexDigits (n : Nat) (hn : n < 2 ^ 64) :
    padStart16 (hexDigits n) = (hexPadLE 16 n).reverse := by
  by_cases h0 : n = 0
  · subst h0
    rw [hexDigits, if_pos rfl, hexPadLE_zero, List.reverse_replicate]
    rfl
  · rw [hexDigits, if_neg h0, padStart16, List.length_reverse,
      ← List.reverse_replicate, ← List.reverse_append,
      hexLE_pad 16 n (by norm_num at hn ⊢; omega)]

/-- Pairing up the big-endian fixed-width hex digits yields the big-endian
bytes. -/
theorem pairsToBytes_hexPadLE_reverse : ∀ w n,
    pairsToBytes ((hexPadLE (2 * w) n).reverse) = (bytesLE w n).reverse := by
  intro w
  induction w with
  | zero => intro n; rfl
  | succ w ih =>
    intro n
    rw [show 2 * (w + 1) = 2 * w + 1 + 1 by ring, hexPadLE, hexPadLE,
      Nat.div_div_eq_div_mul]
    rw [show (16 * 16 : Nat) = 256 by norm_num]
    rw [List.reverse_cons, List.reverse_cons, List.append_assoc]
    rw [pairsToBytes_append _ _ (by rw [List.length_reverse, hexPadLE_length]; omega)]
    rw [ih (n / 256)]
    rw [show pairsToBytes ([n / 16 % 16] ++ [n % 16]) = [n % 256] by
      show pairsToBytes [n / 16 % 16, n % 16] = [n % 256]
      rw [pairsToBytes]
      rw [show 16 * (n / 16 % 16) + n % 16 = n % 256 by omega]
      rfl]
    rw [bytesLE, List.reverse_cons]

/-- Claim C6: for every output script, amount below `2^64` and nonce below
`2^64`, `getHashForOnchain` equals keccak256 of (the nonce as 8 big-endian
bytes — written as hex — concatenated with keccak256 of (the amount as 8
little-endian bytes concatenated with the output script)). -/
theorem c6_getHashForOnchain (keccak : List Nat → List Nat)
    (outputScript : List Nat) (amount nonce : Nat)
    (ha : amount < 2 ^ 64) (hn : nonce < 2 ^ 64) :
    getHashForOnchain keccak outputScript amount nonce =
      keccak (bytesBE 8 nonce ++ keccak (bytesLE 8 amount ++ outputScript)) := by
  have hrev : ∀ m : Nat, pairsToBytes ((hexPadLE 16 m).reverse) = (bytesLE 8 m).reverse :=
    fun m => pairsToBytes_hexPadLE_reverse 8 m
  dsimp only [getHashForOnchain, solidityKeccak256, bytesBE]
  rw [padStart16_hexDigits amount ha, padStart16_hexDigits nonce hn,
    hrev amount, List.reverse_reverse, pairsToBytes_bytesToHexDigits,
    pairsToBytes_append _ _ (by rw [List.length_reverse, hexPadLE_length]),
    hrev nonce, pairsToBytes_bytesToHexDigits, pairsToBytes_bytesToHexDigits]

/-- Witness for claim C6, with a length-counting stand-in for keccak and
concrete script, amount and nonce. -/
theorem c6_getHashForOnchain_witness :
    (300 : Nat) < 2 ^ 64 ∧ (4 : Nat) < 2 ^ 64 ∧
    getHashForOnchain (fun l => [l.length]) [7] 300 4 =
      (fun l : List Nat => [l.length])
        (bytesBE 8 4 ++ (fun l : List Nat => [l.length]) (bytesLE 8 300 ++ [7])) :=
  ⟨by norm_num, by norm_num,
    c6_getHashForOnchain (fun l => [l.length]) [7] 300 4 (by norm_num) (by norm_num)⟩

end OnchainHash

end BtcBridge
